import Mathlib

/-!
Verification development for the `ya` asynchronous benchmark framework
(`ya/runner.py`, `ya/stat.py`).  The Python source is shallowly embedded:
pure computations become Lean functions, the effectful parts (fixture
resolution, the measurement loop, teardown, worker fan-out) become explicit
state/trace-passing functions returning `Except`, and wall-clock time is an
explicit list of clock readings.
-/

/-- Opaque runtime values (fixture values and benchmark return values). -/
abbrev Value := Int

/-- Python exceptions that the embedded fragment of `runner.py` can raise. -/
inductive Err where
  /-- `getattr(module, name)` fails: the named function does not exist. -/
  | attributeError (name : String)
  /-- `RuntimeError("Fixtures function {name} must be async")` in `run_fixture`. -/
  | runtimeError (name : String)
  /-- Python `RecursionError`: the interpreter recursion budget is exhausted. -/
  | recursionError
  /-- An exception raised by the benchmark callable during the loop. -/
  | executionError (msg : String)
  /-- An exception (other than `StopAsyncIteration`) raised by a fixture
  generator when resumed for teardown. -/
  | teardownError (msg : String)
deriving DecidableEq, Repr

/-- Observable side effects of a run, recorded as a trace. -/
inductive Event where
  /-- The producer of fixture `name` was invoked (`await func(*args)` or the
  first `gen.__anext__()`). -/
  | invokeFixture (name : String)
  /-- The benchmark callable was invoked (`await benchmark_func(...)`),
  `i`-th iteration of the loop. -/
  | invokeBenchmark (i : Nat)
  /-- A retained fixture generator was resumed once for teardown
  (`await gen.__anext__()` in the cleanup loop). -/
  | teardown (name : String)
deriving DecidableEq, Repr

/-- What a SCOPED fixture generator does when resumed for its teardown step. -/
inductive TeardownBehavior where
  /-- Raises `StopAsyncIteration`: the normal single-exit teardown. -/
  | stops
  /-- Yields a further value: `run_single_executor` silently accepts this. -/
  | yieldsAgain (v : Value)
  /-- Raises some other exception. -/
  | raises (msg : String)
deriving DecidableEq, Repr

/-- A retained async-generator object awaiting its single teardown resumption
(the elements of `fixture_enumerators` in `run_single_executor`). -/
structure Gen where
  name : String
  teardown : TeardownBehavior
deriving DecidableEq, Repr

/-- Shape of a fixture function in the loaded module. -/
inductive FixtureBody where
  /-- `inspect.iscoroutinefunction(func)`: a one-shot async function. -/
  | coroutine (produce : List Value → Value)
  /-- `inspect.isasyncgenfunction(func)`: a scoped async generator; its first
  `__anext__` yields `produce args`, its second behaves per `td`. -/
  | asyncGen (produce : List Value → Value) (td : TeardownBehavior)
  /-- Neither: `run_fixture` raises `RuntimeError`. -/
  | plain

/-- A fixture function: its parameter names (= dependency fixture names,
from `inspect.signature`) and its body. -/
structure FixtureFunc where
  deps : List String
  body : FixtureBody

/-- The loaded benchmark module, as a name-indexed table of fixture
functions (`getattr(module, name)`). -/
abbrev FixModule := List (String × FixtureFunc)

/-- The per-executor fixture cache (a Python dict; `cons` overwrites). -/
abbrev Cache := List (String × Value)

/-- `name in cache` in `run_fixture`. -/
def isCached (cache : Cache) (name : String) : Bool :=
  (List.lookup name cache).isSome

/-- The dependency-resolution loop of `run_fixture` (lines 71-78 of
`runner.py`), parametrised by the recursive resolver `rf`: for each
dependency name, use the cached value if present, otherwise recursively
resolve it, accumulating generators, argument values, the threaded cache and
the event trace. -/
def resolveDepsWith
    (rf : String → Cache → Except Err (List Gen × Value × Cache) × List Event) :
    List String → Cache → Except Err (List Gen × List Value × Cache) × List Event
  | [], cache => (.ok ([], [], cache), [])
  | d :: ds, cache =>
    match List.lookup d cache with
    | some v =>
      match resolveDepsWith rf ds cache with
      | (.error e, tr) => (.error e, tr)
      | (.ok (gens, args, cache1), tr) => (.ok (gens, v :: args, cache1), tr)
    | none =>
      match rf d cache with
      | (.error e, tr) => (.error e, tr)
      | (.ok (g1, v, cache1), tr1) =>
        match resolveDepsWith rf ds cache1 with
        | (.error e, tr2) => (.error e, tr1 ++ tr2)
        | (.ok (gens, args, cache2), tr2) =>
          (.ok (g1 ++ gens, v :: args, cache2), tr1 ++ tr2)

/-- `run_fixture(module, name, cache)` (lines 62-93 of `runner.py`).
`fuel` is the Python interpreter's recursion budget: each nested
`run_fixture` frame consumes one unit and exhaustion is `RecursionError`.
Note there is no cache check for `name` itself: only dependencies are looked
up in the cache. -/
def run_fixture (module : FixModule) :
    Nat → String → Cache → Except Err (List Gen × Value × Cache) × List Event
  | 0 => fun _ _ => (.error .recursionError, [])
  | fuel + 1 => fun name cache =>
    match List.lookup name module with
    | none => (.error (.attributeError name), [])
    | some f =>
      match resolveDepsWith (run_fixture module fuel) f.deps cache with
      | (.error e, tr) => (.error e, tr)
      | (.ok (gens, args, cache1), tr) =>
        match f.body with
        | .coroutine produce =>
          (.ok (gens, produce args, (name, produce args) :: cache1),
            tr ++ [.invokeFixture name])
        | .asyncGen produce td =>
          (.ok (gens ++ [⟨name, td⟩], produce args, (name, produce args) :: cache1),
            tr ++ [.invokeFixture name])
        | .plain => (.error (.runtimeError name), tr)

/-- The dependency-resolution loop instantiated with `run_fixture`. -/
def resolve_deps (module : FixModule) (fuel : Nat) :
    List String → Cache → Except Err (List Gen × List Value × Cache) × List Event :=
  resolveDepsWith (run_fixture module fuel)

/-- The setup phase of `run_single_executor` (lines 111-117): call
`run_fixture` for each name in the benchmark's fixture list, threading one
cache, extending the generator list and collecting the argument values.
Note: the loop calls `run_fixture` directly, with no cache check. -/
def setup_fixtures (module : FixModule) (fuel : Nat) :
    List String → Cache → Except Err (List Gen × List Value × Cache) × List Event
  | [], cache => (.ok ([], [], cache), [])
  | name :: rest, cache =>
    match run_fixture module fuel name cache with
    | (.error e, tr) => (.error e, tr)
    | (.ok (gens, v, cache1), tr1) =>
      match setup_fixtures module fuel rest cache1 with
      | (.error e, tr2) => (.error e, tr1 ++ tr2)
      | (.ok (gens2, vs, cache2), tr2) =>
        (.ok (gens ++ gens2, v :: vs, cache2), tr1 ++ tr2)

/-- One recorded sample: `(call_start, execution_time_ms, return_value)`. -/
structure Sample where
  timestamp : ℚ
  execution_time : ℚ
  rtn : Value
deriving DecidableEq, Repr

/-- The measurement loop of `run_single_executor` (lines 124-135).  Each
iteration consumes one clock triple `(t_check, t_start, t_end)`: the
`time.time()` readings of the `while` guard, of `call_start` and of the
post-invocation measurement.  An exhausted clock list models the deadline
having passed (the guard fails).  An exception from the benchmark callable
propagates immediately. -/
def benchLoop (endTime : ℚ) (invoke : Nat → Except String Value) :
    Nat → List (ℚ × ℚ × ℚ) → Except Err (List Sample) × List Event
  | _, [] => (.ok [], [])
  | i, (tc, ts, te) :: rest =>
    if tc < endTime then
      match invoke i with
      | .error msg => (.error (.executionError msg), [])
      | .ok v =>
        match benchLoop endTime invoke (i + 1) rest with
        | (.error e, evs) => (.error e, .invokeBenchmark i :: evs)
        | (.ok samples, evs) =>
          (.ok (⟨ts, (te - ts) * 1000, v⟩ :: samples), .invokeBenchmark i :: evs)
    else (.ok [], [])

/-- The teardown loop of `run_single_executor` (lines 138-142): resume each
retained generator once; only `StopAsyncIteration` is caught (a further
yield is silently accepted); any other exception propagates, aborting the
remaining resumptions. -/
def release : List Gen → Except Err Unit × List Event
  | [] => (.ok (), [])
  | g :: rest =>
    match g.teardown with
    | .raises msg => (.error (.teardownError msg), [.teardown g.name])
    | _ =>
      match release rest with
      | (r, evs) => (r, .teardown g.name :: evs)

/-- `run_single_executor` (lines 96-144 of `runner.py`): fixture setup,
deadline-bounded measurement loop, then teardown of the retained
generators.  `startTime` is the `time.time()` reading of line 120;
`clock` supplies the loop's readings. -/
def run_single_executor (module : FixModule) (fuel : Nat)
    (fixture_names : List String)
    (bench : List Value → Nat → Except String Value)
    (startTime durationMinutes : ℚ)
    (clock : List (ℚ × ℚ × ℚ)) : Except Err (List Sample) × List Event :=
  match setup_fixtures module fuel fixture_names [] with
  | (.error e, tr) => (.error e, tr)
  | (.ok (gens, values, _), tr) =>
    let endTime := startTime + durationMinutes * 60
    match benchLoop endTime (bench values) 0 clock with
    | (.error e, evs) => (.error e, tr ++ evs)
    | (.ok samples, evs) =>
      match release gens with
      | (.error e, tevs) => (.error e, tr ++ evs ++ tevs)
      | (.ok _, tevs) => (.ok samples, tr ++ evs ++ tevs)

/-- Sequential collection of fallible results, stopping at the first raised
exception.  Models `asyncio.gather` over executor tasks, the `for` loop of
`run_benchmarks`, and `multiprocessing.Pool.map` (all of which propagate the
first exception and otherwise return results in input order). -/
def collectResults (f : α → Except Err β) : List α → Except Err (List β)
  | [] => .ok []
  | a :: as =>
    match f a with
    | .error e => .error e
    | .ok b =>
      match collectResults f as with
      | .error e => .error e
      | .ok bs => .ok (b :: bs)

/-- `run_worker_async` (lines 147-181): run `numTasks` executors for one
benchmark (each with its own start time and clock readings, supplied by
`taskClocks`), gather, and flatten the per-task sample lists in task order. -/
def run_worker_async (module : FixModule) (fuel : Nat)
    (fixtures : List String)
    (bench : List Value → Nat → Except String Value)
    (durationMinutes : ℚ)
    (taskClocks : List (ℚ × List (ℚ × ℚ × ℚ))) : Except Err (List Sample) :=
  match collectResults
      (fun tc => (run_single_executor module fuel fixtures bench tc.1
        durationMinutes tc.2).1) taskClocks with
  | .error e => .error e
  | .ok allResults => .ok allResults.flatten

/-- The per-benchmark `worker_args` list of `run_benchmarks` (lines 246-249):
one identical argument tuple `(script_path, benchmark_name, fixtures,
num_tasks, duration_minutes)` per worker. -/
def worker_args (scriptPath benchmarkName : String) (fixtures : List String)
    (numTasks : Nat) (durationMinutes : ℚ) (numWorkers : Nat) :
    List (String × String × List String × Nat × ℚ) :=
  (List.range numWorkers).map
    (fun _ => (scriptPath, benchmarkName, fixtures, numTasks, durationMinutes))

/-- The number of task executors each worker unit receives out of an
argument-tuple list. -/
def unitTaskCounts (args : List (String × String × List String × Nat × ℚ)) :
    List Nat :=
  args.map (fun a => a.2.2.2.1)

/-- Modelled from the spec: the Orchestrator splits `totalTasks` as evenly
as possible across `workerCount` worker units, remainder to the first
units.  Stated for comparison with the source's `worker_args`. -/
def specWorkerSplit (totalTasks workerCount : Nat) : List Nat :=
  (List.range workerCount).map
    (fun i => totalTasks / workerCount +
      if i < totalTasks % workerCount then 1 else 0)

/-- One row of the result DataFrame built by `run_benchmarks`
(lines 261-271). -/
structure Row where
  benchmark : String
  worker : Nat
  timestamp : ℚ
  execution_time : ℚ
  return_value : Value
deriving DecidableEq, Repr

/-- The row-building loop of `run_benchmarks` (lines 261-271): tag each
sample with the benchmark name and its worker index. -/
def rows_of (name : String) (worker_results : List (List Sample)) : List Row :=
  (worker_results.enum.map
    (fun p => p.2.map
      (fun s => ⟨name, p.1, s.timestamp, s.execution_time, s.rtn⟩))).flatten

/-- One iteration of the benchmark loop of `run_benchmarks` (lines 242-273):
run all workers for one benchmark via `pool.map` (which re-raises any worker
exception) and build the tagged rows. -/
def run_one_benchmark (workerRunner : String → Nat → Except Err (List Sample))
    (name : String) (numWorkers : Nat) : Except Err (List Row) :=
  match collectResults (workerRunner name) (List.range numWorkers) with
  | .error e => .error e
  | .ok wrs => .ok (rows_of name wrs)

/-- `run_benchmarks` (lines 202-280): filter the discovered benchmarks when
a `specific_task` is given (`matcher` embeds the Python test
`re.match(specific_task, name) or specific_task in name`), return an empty
result set if nothing matches, otherwise run every benchmark in discovery
order and concatenate the rows.  A worker exception propagates out of the
`for` loop uncaught. -/
def run_benchmarks (discovered : List (String × List String))
    (matcher : String → Bool) (useFilter : Bool)
    (workerRunner : String → Nat → Except Err (List Sample))
    (numWorkers : Nat) : Except Err (List Row) :=
  let benchmarks :=
    if useFilter then discovered.filter (fun b => matcher b.1) else discovered
  if benchmarks.isEmpty then .ok []
  else
    match collectResults
        (fun b => run_one_benchmark workerRunner b.1 numWorkers) benchmarks with
    | .error e => .error e
    | .ok rowss => .ok rowss.flatten

/-- Insertion into a timestamp-sorted list. -/
def insertSorted (x : ℚ) : List ℚ → List ℚ
  | [] => [x]
  | y :: ys => if x ≤ y then x :: y :: ys else y :: insertSorted x ys

/-- `func_data.sort_values("timestamp")` of `calculate_cps`: sort the
timestamp column ascending. -/
def sortByTimestamp : List ℚ → List ℚ
  | [] => []
  | x :: xs => insertSorted x (sortByTimestamp xs)

/-- `calculate_cps` of `stat.py` (lines 51-98) for one benchmark's timestamp
column: sort ascending, trim `int(n * 0.1)` samples from each end
(`iloc[trim_count:-trim_count]`; `int(n * 0.1) = n / 10` in integer
arithmetic), return 0 when at most one sample remains, otherwise divide the
remaining count by `(max - min) / 1000.0` — the source divides the
timestamp span by 1000 even though timestamps are `time.time()` seconds —
or return the count when that span is zero. -/
def calculate_cps (timestamps : List ℚ) : ℚ :=
  let sorted := sortByTimestamp timestamps
  let n := sorted.length
  let trim_count := n / 10
  let trimmed :=
    if 0 < trim_count then (sorted.drop trim_count).take (n - 2 * trim_count)
    else sorted
  if trimmed.length ≤ 1 then 0
  else
    match trimmed with
    | [] => 0
    | t :: rest =>
      let mx := rest.foldl max t
      let mn := rest.foldl min t
      let time_span_seconds := (mx - mn) / 1000
      if 0 < time_span_seconds then (trimmed.length : ℚ) / time_span_seconds
      else (trimmed.length : ℚ)

/-- A member of a loaded Python module as seen by `inspect.getmembers`:
whether it is a coroutine function, and its positional parameter names. -/
structure PyMember where
  isCoroutineFunction : Bool
  params : List String
deriving DecidableEq, Repr

/-- Python's `name.startswith(pre)`, on the character sequences. -/
def startswith (name pre : String) : Bool :=
  pre.data.isPrefixOf name.data

/-- `discover_benchmarks` (lines 42-59 of `runner.py`): keep every member
whose name starts with `benchmark_` and which is a coroutine function, and
record its parameter names as its fixture dependency list. -/
def discover_benchmarks (members : List (String × PyMember)) :
    List (String × List String) :=
  (members.filter
    (fun m => startswith m.1 "benchmark_" && m.2.isCoroutineFunction)).map
    (fun m => (m.1, m.2.params))

/-- The members of `example_benchmark.py` in `inspect.getmembers` order
(sorted by name): six parameterless coroutine functions plus the imported
`asyncio` module object. -/
def exampleModuleMembers : List (String × PyMember) :=
  [("asyncio", ⟨false, []⟩),
   ("benchmark_cpu_calculation", ⟨true, []⟩),
   ("benchmark_cpu_calculation_setup", ⟨true, []⟩),
   ("benchmark_cpu_calculation_teardown", ⟨true, []⟩),
   ("benchmark_simple_sleep", ⟨true, []⟩),
   ("benchmark_simple_sleep_setup", ⟨true, []⟩),
   ("benchmark_simple_sleep_teardown", ⟨true, []⟩)]

/-- The flattened sequence of `time.time()` readings consumed by the
measurement loop, in reading order. -/
def flattenClock : List (ℚ × ℚ × ℚ) → List ℚ
  | [] => []
  | (tc, ts, te) :: rest => tc :: ts :: te :: flattenClock rest

/-- A two-fixture cyclic module: `A` depends on `B` and `B` depends on `A`. -/
def cyclicModule : FixModule :=
  [("A", ⟨["B"], .coroutine (fun _ => 0)⟩),
   ("B", ⟨["A"], .coroutine (fun _ => 0)⟩)]

/-- Module for the memoization scenario: fixture `a` has no dependencies,
fixture `b` depends on `a`. -/
def memoModule : FixModule :=
  [("a", ⟨[], .coroutine (fun _ => 1)⟩),
   ("b", ⟨["a"], .coroutine (fun args => args.headD 0 + 1)⟩)]

/-- Module with one SCOPED fixture whose teardown behaves normally. -/
def scopedModule : FixModule :=
  [("db", ⟨[], .asyncGen (fun _ => 7) .stops⟩)]

/-- Module with two SCOPED fixtures; the first one's teardown raises. -/
def badTeardownModule : FixModule :=
  [("r1", ⟨[], .asyncGen (fun _ => 1) (.raises "t1")⟩),
   ("r2", ⟨[], .asyncGen (fun _ => 2) .stops⟩)]

/-- A resolver never re-invokes the producer of a fixture that is already
cached, except possibly for the entry name itself. -/
def RfNoReinvoke
    (rf : String → Cache → Except Err (List Gen × Value × Cache) × List Event) :
    Prop :=
  ∀ d cache m, isCached cache m = true → m ≠ d →
    Event.invokeFixture m ∉ (rf d cache).2

/-- A resolver only ever adds entries to the cache. -/
def RfMonotone
    (rf : String → Cache → Except Err (List Gen × Value × Cache) × List Event) :
    Prop :=
  ∀ d cache gens v cache1 tr, rf d cache = (.ok (gens, v, cache1), tr) →
    ∀ m, isCached cache m = true → isCached cache1 m = true

/-- A worker runner whose workers raise for benchmark `b1` and succeed with
no samples for every other benchmark. -/
def failWorkerRunner : String → Nat → Except Err (List Sample) :=
  fun n _ => if n == "b1" then .error (.executionError "w0") else .ok []

/-- One hundred evenly spaced sample timestamps, one second apart (seconds
since epoch), covering a span of 100 seconds. -/
def hundredTimestamps : List ℚ := [0, 1, 2, 3, 4, 5, 6, 7, 8, 9, 10, 11, 12, 13, 14, 15, 16, 17, 18, 19, 20, 21, 22, 23, 24, 25, 26, 27, 28, 29, 30, 31, 32, 33, 34, 35, 36, 37, 38, 39, 40, 41, 42, 43, 44, 45, 46, 47, 48, 49, 50, 51, 52, 53, 54, 55, 56, 57, 58, 59, 60, 61, 62, 63, 64, 65, 66, 67, 68, 69, 70, 71, 72, 73, 74, 75, 76, 77, 78, 79, 80, 81, 82, 83, 84, 85, 86, 87, 88, 89, 90, 91, 92, 93, 94, 95, 96, 97, 98, 99]

set_option maxRecDepth 8000

/-- Helper: `calculate_cps` on the 100 evenly spaced timestamps reduces to
the final arithmetic expression (everything except the rational arithmetic
evaluates by computation). -/
theorem calculate_cps_hundred_eval :
    calculate_cps hundredTimestamps =
      (if 0 < ((89 : ℚ) - 10) / 1000
       then ((80 : ℕ) : ℚ) / (((89 : ℚ) - 10) / 1000)
       else ((80 : ℕ) : ℚ)) := by
  rfl

/-- Claim C3 (counterexample): on the cyclic graph `A depends on B, B
depends on A`, `run_fixture` with recursion budget 30 does not detect the
cycle and does not raise a configuration error: it recurses until the
budget is exhausted and fails with `RecursionError` (no producer having
been invoked, so the trace is empty). -/
theorem C3_counterexample :
    run_fixture cyclicModule 30 "A" [] = (.error .recursionError, []) := rfl

/-- Claim C3 (amended): for every recursion budget, resolving either member
of the cycle `A depends on B, B depends on A` recurses until the budget is
exhausted and fails with `RecursionError`; no cycle is detected, no
configuration error is raised, and no fixture producer is invoked. -/
theorem C3_amended (fuel : Nat) :
    run_fixture cyclicModule fuel "A" [] = (.error .recursionError, []) ∧
    run_fixture cyclicModule fuel "B" [] = (.error .recursionError, []) := by
  have hA : List.lookup "A" cyclicModule =
      some ⟨["B"], .coroutine (fun _ => 0)⟩ := rfl
  have hB : List.lookup "B" cyclicModule =
      some ⟨["A"], .coroutine (fun _ => 0)⟩ := rfl
  have hnil : ∀ s : String, List.lookup s ([] : Cache) = none := fun _ => rfl
  induction fuel with
  | zero => exact ⟨rfl, rfl⟩
  | succ n ih =>
    refine ⟨?_, ?_⟩
    · simp only [run_fixture, resolveDepsWith, hA, hB, hnil, ih.1, ih.2]
    · simp only [run_fixture, resolveDepsWith, hA, hB, hnil, ih.1, ih.2]

/-- Claim C5: at the failing input of 100 evenly spaced samples spanning
100 seconds, the code's `calculate_cps` returns `80000 / 79` (about 1013
calls per second) instead of the specified `80 / 79` (about 1.013): the
source divides the timestamp span by 1000 although timestamps are
`time.time()` seconds. -/
theorem C5_cps_at_failing_input :
    calculate_cps hundredTimestamps = 80000 / 79 ∧
    (80000 / 79 : ℚ) ≠ 80 / 79 := by
  constructor
  · rw [calculate_cps_hundred_eval]; norm_num
  · norm_num

/-- Claim C1 (counterexample): with `num_tasks = 10` and `num_workers = 3`
the orchestrator gives every worker unit 10 task executors — the per-unit
counts are `[10, 10, 10]`, not the spec's even split `[4, 3, 3]` of a task
total: the code has no splitting step at all. -/
theorem C1_counterexample :
    unitTaskCounts (worker_args "script" "bench" [] 10 1 3) = [10, 10, 10] ∧
    specWorkerSplit 10 3 = [4, 3, 3] ∧
    unitTaskCounts (worker_args "script" "bench" [] 10 1 3) ≠ specWorkerSplit 10 3 := by
  refine ⟨by decide, by decide, by decide⟩

/-- Claim C1 (amended): `run_benchmarks` performs no split of a task total:
every worker unit receives exactly `num_tasks` task executors (so the
per-unit counts are `num_tasks` replicated `num_workers` times, and the
batch runs `num_workers * num_tasks` executors in total); and the worker
unit's concatenated sample list is the flattening of its executors' sample
lists, so its sample count equals the sum of each executor's sample count. -/
theorem C1_amended :
    (∀ (s b : String) (f : List String) (nt : Nat) (d : ℚ) (nw : Nat),
      unitTaskCounts (worker_args s b f nt d nw) = List.replicate nw nt ∧
      (unitTaskCounts (worker_args s b f nt d nw)).sum = nw * nt) ∧
    (∀ (module : FixModule) (fuel : Nat) (fixtures : List String)
      (bench : List Value → Nat → Except String Value) (dur : ℚ)
      (taskClocks : List (ℚ × List (ℚ × ℚ × ℚ))) (rs : List (List Sample)),
      collectResults (fun tc => (run_single_executor module fuel fixtures bench
        tc.1 dur tc.2).1) taskClocks = .ok rs →
      run_worker_async module fuel fixtures bench dur taskClocks = .ok rs.flatten ∧
      rs.flatten.length = (rs.map List.length).sum) := by
  constructor
  · intro s b f nt d nw
    have h : unitTaskCounts (worker_args s b f nt d nw) = List.replicate nw nt := by
      simp [unitTaskCounts, worker_args, List.map_map, Function.comp]
    refine ⟨h, ?_⟩
    rw [h]
    simp [List.sum_replicate, smul_eq_mul]
  · intro module fuel fixtures bench dur taskClocks rs h
    refine ⟨?_, ?_⟩
    · simp [run_worker_async, h]
    · simp [List.length_flatten]

/-- Claim C1 (witness): the amended statement instantiated — two workers
with `num_tasks = 4` each yield per-unit counts `[4, 4]`, and a worker with
one executor whose clock is exhausted returns the flattening of its
executors' (empty) sample lists. -/
theorem C1_witness :
    unitTaskCounts (worker_args "s" "b" [] 4 1 2) = List.replicate 2 4 ∧
    run_worker_async [] 1 [] (fun _ _ => .ok 0) 1 [(0, [])] =
      .ok ([[]] : List (List Sample)).flatten :=
  ⟨(C1_amended.1 "s" "b" [] 4 1 2).1,
   (C1_amended.2 [] 1 [] (fun _ _ => .ok 0) 1 [(0, [])] [[]] rfl).1⟩

/-- Claim C9: when the name filter matches none of the discovered
benchmarks, `run_benchmarks` returns an empty result collection and raises
no error ("nothing to run" is not a failure). -/
theorem C9_empty_filter (discovered : List (String × List String))
    (matcher : String → Bool)
    (workerRunner : String → Nat → Except Err (List Sample)) (numWorkers : Nat)
    (h : ∀ b ∈ discovered, matcher b.1 = false) :
    run_benchmarks discovered matcher true workerRunner numWorkers = .ok [] := by
  have hf : discovered.filter (fun b => matcher b.1) = [] := by
    rw [List.filter_eq_nil_iff]
    intro a ha
    simp [h a ha]
  simp [run_benchmarks, hf]

/-- Claim C9 (witness): a single discovered benchmark with a filter that
matches nothing yields the empty result collection. -/
theorem C9_witness :
    run_benchmarks [("bench_x", [])] (fun _ => false) true failWorkerRunner 1 =
      .ok [] :=
  C9_empty_filter [("bench_x", [])] (fun _ => false) failWorkerRunner 1
    (fun _ _ => rfl)

/-- Helper: collecting fallible results raises the first exception — if
everything before `a` succeeds and `a` fails, the whole collection fails
with the exception of `a`. -/
lemma collectResults_append_error (f : α → Except Err β) (pre : List α) (a : α)
    (post : List α) (e : Err)
    (hpre : ∀ p ∈ pre, ∃ y, f p = .ok y) (ha : f a = .error e) :
    collectResults f (pre ++ a :: post) = .error e := by
  induction pre with
  | nil => simp [collectResults, ha]
  | cons p ps ih =>
    obtain ⟨y, hy⟩ := hpre p (by simp)
    have := ih (fun q hq => hpre q (by simp [hq]))
    simp [collectResults, hy, this]

/-- Claim C6 (amended): a worker-unit failure is not contained to its
benchmark: the exception propagates out of `run_benchmarks` uncaught, the
batch aborts, and the results of every benchmark — including the ones that
already completed — are discarded; failures are not collected. -/
theorem C6_amended (pre : List (String × List String)) (b : String × List String)
    (post : List (String × List String)) (matcher : String → Bool)
    (workerRunner : String → Nat → Except Err (List Sample)) (numWorkers : Nat)
    (e : Err)
    (hpre : ∀ p ∈ pre, ∃ rows, run_one_benchmark workerRunner p.1 numWorkers = .ok rows)
    (hb : run_one_benchmark workerRunner b.1 numWorkers = .error e) :
    run_benchmarks (pre ++ b :: post) matcher false workerRunner numWorkers = .error e := by
  have hne : (pre ++ b :: post).isEmpty = false := by
    cases pre <;> simp [List.isEmpty]
  have hc : collectResults (fun x => run_one_benchmark workerRunner x.1 numWorkers)
      (pre ++ b :: post) = .error e :=
    collectResults_append_error _ pre b post e hpre hb
  simp [run_benchmarks, hne, hc]

/-- Claim C6 (counterexample): with two discovered benchmarks where a
worker of the first raises, `run_benchmarks` returns that single error —
the sibling benchmark's results are not produced and no failure collection
is reported, contradicting the claim that siblings still run and failures
are collected after the batch. -/
theorem C6_counterexample :
    run_benchmarks [("b1", []), ("b2", [])] (fun _ => false) false
      failWorkerRunner 1 = .error (.executionError "w0") := rfl

/-- Claim C6 (witness): the amended statement instantiated — benchmark
`b0` succeeds, `b1`'s worker raises, and the whole batch aborts with
`b1`'s exception even though `b2` was still pending. -/
theorem C6_witness :
    run_benchmarks ([("b0", [])] ++ ("b1", []) :: [("b2", [])]) (fun _ => false)
      false failWorkerRunner 1 = .error (.executionError "w0") :=
  C6_amended [("b0", [])] ("b1", []) [("b2", [])] (fun _ => false)
    failWorkerRunner 1 (.executionError "w0")
    (by intro p hp; simp at hp; subst hp; exact ⟨[], rfl⟩) rfl

/-- Claim C10: discovery treats exactly the coroutine functions whose name
starts with `benchmark_` as benchmarks, taking the function's parameter
names, in signature order, as its fixture dependency names; in particular
the async helper `benchmark_simple_sleep_setup` of `example_benchmark.py`
is itself discovered as a benchmark. -/
theorem C10_discovery :
    (∀ (members : List (String × PyMember)) (name : String) (fixtures : List String),
      (name, fixtures) ∈ discover_benchmarks members ↔
        ∃ m : PyMember, (name, m) ∈ members ∧
          startswith name "benchmark_" = true ∧
          m.isCoroutineFunction = true ∧ fixtures = m.params) ∧
    ("benchmark_simple_sleep_setup", ([] : List String)) ∈
      discover_benchmarks exampleModuleMembers := by
  constructor
  · intro members name fixtures
    simp only [discover_benchmarks, List.mem_map, List.mem_filter]
    constructor
    · rintro ⟨⟨n, m⟩, ⟨hmem, hp⟩, heq⟩
      simp only [Prod.mk.injEq] at heq
      obtain ⟨rfl, rfl⟩ := heq
      rw [Bool.and_eq_true] at hp
      exact ⟨m, hmem, hp.1, hp.2, rfl⟩
    · rintro ⟨m, hmem, hpre, hco, rfl⟩
      exact ⟨(name, m), ⟨hmem, by rw [Bool.and_eq_true]; exact ⟨hpre, hco⟩⟩, rfl⟩
  · decide

/-- Claim C7 (amended): the release step resumes each pending SCOPED
fixture once, in order, only until a teardown raises: when no teardown
raises (normal `StopAsyncIteration` exit or a further yield both count as
success), every fixture receives exactly one resumption and the run's
result stands; but a raising teardown aborts the resumptions of all
remaining fixtures and the overall result of the run. -/
theorem C7_amended :
    (∀ gens : List Gen, (∀ g ∈ gens, ∀ msg, g.teardown ≠ .raises msg) →
      release gens = (.ok (), gens.map (fun g => Event.teardown g.name))) ∧
    (∀ (gens1 : List Gen) (g : Gen) (gens2 : List Gen) (msg : String),
      (∀ g' ∈ gens1, ∀ msg', g'.teardown ≠ .raises msg') →
      g.teardown = .raises msg →
      release (gens1 ++ g :: gens2) =
        (.error (.teardownError msg),
          gens1.map (fun g' => Event.teardown g'.name) ++ [Event.teardown g.name])) := by
  constructor
  · intro gens h
    induction gens with
    | nil => rfl
    | cons g gs ih =>
      have hg := h g (by simp)
      have ihgs := ih (fun g' hg' => h g' (by simp [hg']))
      cases ht : g.teardown with
      | stops => simp [release, ht, ihgs]
      | yieldsAgain v => simp [release, ht, ihgs]
      | raises m => exact absurd ht (hg m)
  · intro gens1 g gens2 msg h1 hg
    induction gens1 with
    | nil => simp [release, hg]
    | cons p ps ih =>
      have hp := h1 p (by simp)
      have hrest := ih (fun q hq => h1 q (by simp [hq]))
      cases ht : p.teardown with
      | stops => simp [release, ht, hrest]
      | yieldsAgain v => simp [release, ht, hrest]
      | raises m => exact absurd ht (hp m)

/-- Claim C7 (counterexample): with two SCOPED fixtures whose first
teardown raises, the executor resumes only the first generator — the
second pending fixture receives no teardown attempt — and the whole run's
result becomes the teardown error, contradicting the claim that a failing
teardown aborts neither the remaining teardowns nor the result. -/
theorem C7_counterexample :
    run_single_executor badTeardownModule 5 ["r1", "r2"] (fun _ _ => .ok 0) 0 1 [] =
      (.error (.teardownError "t1"),
        [.invokeFixture "r1", .invokeFixture "r2", .teardown "r1"]) := rfl

/-- Claim C7 (witness): the amended statement instantiated — a single
well-behaved fixture is resumed once with an ok result, and in a list of
three where the second raises, only the first two are resumed and the
result is the teardown error. -/
theorem C7_witness :
    release [⟨"x", .stops⟩] = (.ok (), [.teardown "x"]) ∧
    release [⟨"x", .stops⟩, ⟨"y", .raises "m"⟩, ⟨"z", .stops⟩] =
      (.error (.teardownError "m"), [.teardown "x", .teardown "y"]) :=
  ⟨C7_amended.1 [⟨"x", .stops⟩]
     (by rintro g hg msg h; simp at hg; subst hg; cases h),
   C7_amended.2 [⟨"x", .stops⟩] ⟨"y", .raises "m"⟩ [⟨"z", .stops⟩] "m"
     (by rintro g hg msg h; simp at hg; subst hg; cases h) rfl⟩

/-- Helper: every event emitted by the dependency-resolution loop is a
fixture invocation, provided the resolver only emits fixture invocations. -/
lemma resolveDepsWith_events
    (rf : String → Cache → Except Err (List Gen × Value × Cache) × List Event)
    (h : ∀ d cache e, e ∈ (rf d cache).2 → ∃ nm, e = Event.invokeFixture nm) :
    ∀ ds cache e, e ∈ (resolveDepsWith rf ds cache).2 →
      ∃ nm, e = Event.invokeFixture nm := by
  intro ds
  induction ds with
  | nil => intro cache e he; simp [resolveDepsWith] at he
  | cons d ds ih =>
    intro cache e he
    rw [resolveDepsWith] at he
    split at he
    · rename_i v hl
      split at he
      · rename_i e' tr hr
        exact ih cache e (by rw [hr]; exact he)
      · rename_i gens args cache1 tr hr
        exact ih cache e (by rw [hr]; exact he)
    · rename_i hl
      split at he
      · rename_i e' tr hr
        exact h d cache e (by rw [hr]; exact he)
      · rename_i g1 v cache1 tr1 hr
        split at he
        · rename_i e' tr2 hr2
          rcases List.mem_append.mp he with h1 | h2
          · exact h d cache e (by rw [hr]; exact h1)
          · exact ih cache1 e (by rw [hr2]; exact h2)
        · rename_i gens args cache2 tr2 hr2
          rcases List.mem_append.mp he with h1 | h2
          · exact h d cache e (by rw [hr]; exact h1)
          · exact ih cache1 e (by rw [hr2]; exact h2)

/-- Helper: every event emitted by `run_fixture` is a fixture invocation. -/
lemma run_fixture_events (module : FixModule) :
    ∀ fuel name cache e, e ∈ (run_fixture module fuel name cache).2 →
      ∃ nm, e = Event.invokeFixture nm := by
  intro fuel
  induction fuel with
  | zero => intro name cache e he; simp [run_fixture] at he
  | succ n ih =>
    intro name cache e he
    simp only [run_fixture] at he
    split at he
    · simp at he
    · rename_i f hl
      split at he
      · rename_i e' tr hr
        exact resolveDepsWith_events _ (fun d c ev hev => ih d c ev hev) f.deps cache e
          (by rw [hr]; exact he)
      · rename_i gens args cache1 tr hr
        split at he
        · rename_i produce
          rcases List.mem_append.mp he with h1 | h2
          · exact resolveDepsWith_events _ (fun d c ev hev => ih d c ev hev) f.deps cache e
              (by rw [hr]; exact h1)
          · exact ⟨name, by simpa using h2⟩
        · rename_i produce td
          rcases List.mem_append.mp he with h1 | h2
          · exact resolveDepsWith_events _ (fun d c ev hev => ih d c ev hev) f.deps cache e
              (by rw [hr]; exact h1)
          · exact ⟨name, by simpa using h2⟩
        · exact resolveDepsWith_events _ (fun d c ev hev => ih d c ev hev) f.deps cache e
            (by rw [hr]; exact he)

/-- Helper: every event emitted by the setup phase is a fixture invocation. -/
lemma setup_fixtures_events (module : FixModule) (fuel : Nat) :
    ∀ names cache e, e ∈ (setup_fixtures module fuel names cache).2 →
      ∃ nm, e = Event.invokeFixture nm := by
  intro names
  induction names with
  | nil => intro cache e he; simp [setup_fixtures] at he
  | cons name rest ih =>
    intro cache e he
    rw [setup_fixtures] at he
    split at he
    · rename_i e' tr hr
      exact run_fixture_events module fuel name cache e (by rw [hr]; exact he)
    · rename_i gens v cache1 tr1 hr
      split at he
      · rename_i e' tr2 hr2
        rcases List.mem_append.mp he with h1 | h2
        · exact run_fixture_events module fuel name cache e (by rw [hr]; exact h1)
        · exact ih cache1 e (by rw [hr2]; exact h2)
      · rename_i gens2 vs cache2 tr2 hr2
        rcases List.mem_append.mp he with h1 | h2
        · exact run_fixture_events module fuel name cache e (by rw [hr]; exact h1)
        · exact ih cache1 e (by rw [hr2]; exact h2)

/-- Helper: every event emitted by the measurement loop is a benchmark
invocation. -/
lemma benchLoop_events (endTime : ℚ) (invoke : Nat → Except String Value) :
    ∀ clock i e, e ∈ (benchLoop endTime invoke i clock).2 →
      ∃ j, e = Event.invokeBenchmark j := by
  intro clock
  induction clock with
  | nil => intro i e he; simp [benchLoop] at he
  | cons t rest ih =>
    intro i e he
    obtain ⟨tc, ts, te⟩ := t
    rw [benchLoop] at he
    split at he
    · split at he
      · rename_i msg hinv
        simp at he
      · rename_i v hinv
        split at he
        · rename_i e' evs hr
          rcases List.mem_cons.mp he with h1 | h2
          · exact ⟨i, h1⟩
          · exact ih (i + 1) e (by rw [hr]; exact h2)
        · rename_i samples evs hr
          rcases List.mem_cons.mp he with h1 | h2
          · exact ⟨i, h1⟩
          · exact ih (i + 1) e (by rw [hr]; exact h2)
    · simp at he

/-- Helper: the only exception the teardown loop can raise is a teardown
error. -/
lemma release_error_shape :
    ∀ (gens : List Gen) (e : Err) (tevs : List Event),
      release gens = (.error e, tevs) → ∃ msg, e = .teardownError msg := by
  intro gens
  induction gens with
  | nil => intro e tevs h; simp [release] at h
  | cons g rest ih =>
    intro e tevs h
    rw [release] at h
    split at h
    · rename_i msg ht
      cases h
      exact ⟨msg, rfl⟩
    · rename_i ht
      rcases hr : release rest with ⟨r, evs⟩
      rw [hr] at h
      simp only [Prod.mk.injEq] at h
      obtain ⟨h1, h2⟩ := h
      exact ih e evs (by rw [hr, h1])

/-- Claim C2 (amended): cleanup does not run on the error path — whenever a
Task Executor run fails with anything other than a teardown error (in
particular when the benchmark callable raises during the measurement loop),
the exception propagates out of the executor without a single teardown
resumption having been performed. -/
theorem C2_amended (module : FixModule) (fuel : Nat) (fixture_names : List String)
    (bench : List Value → Nat → Except String Value)
    (startTime durationMinutes : ℚ) (clock : List (ℚ × ℚ × ℚ)) (e : Err)
    (hres : (run_single_executor module fuel fixture_names bench startTime
      durationMinutes clock).1 = .error e)
    (hnot : ∀ msg, e ≠ .teardownError msg) :
    ∀ nm, Event.teardown nm ∉ (run_single_executor module fuel fixture_names
      bench startTime durationMinutes clock).2 := by
  intro nm hmem
  rcases hsetup : setup_fixtures module fuel fixture_names [] with ⟨rsetup, tr⟩
  cases rsetup with
  | error e' =>
    simp only [run_single_executor, hsetup] at hres hmem
    obtain ⟨nm', hnm⟩ := setup_fixtures_events module fuel fixture_names [] _
      (by rw [hsetup]; exact hmem)
    cases hnm
  | ok triple =>
    obtain ⟨gens, values, c⟩ := triple
    rcases hloop : benchLoop (startTime + durationMinutes * 60) (bench values) 0 clock
      with ⟨rloop, evs⟩
    cases rloop with
    | error e' =>
      simp only [run_single_executor, hsetup, hloop] at hres hmem
      rcases List.mem_append.mp hmem with h1 | h2
      · obtain ⟨nm', hnm⟩ := setup_fixtures_events module fuel fixture_names [] _
          (by rw [hsetup]; exact h1)
        cases hnm
      · obtain ⟨j, hj⟩ := benchLoop_events (startTime + durationMinutes * 60)
          (bench values) clock 0 _ (by rw [hloop]; exact h2)
        cases hj
    | ok samples =>
      rcases hrel : release gens with ⟨rrel, tevs⟩
      cases rrel with
      | error e' =>
        simp only [run_single_executor, hsetup, hloop, hrel] at hres
        obtain ⟨msg, hmsg⟩ := release_error_shape gens e' tevs hrel
        exact hnot msg (by injection hres with h; rw [← h]; exact hmsg)
      | ok u =>
        simp only [run_single_executor, hsetup, hloop, hrel] at hres
        cases hres

/-- Claim C2 (counterexample): a benchmark that raises at the first loop
iteration, in an executor holding one SCOPED fixture, makes the executor
propagate the execution error with a trace containing no teardown event:
the teardown step did not execute before the exception propagated. -/
theorem C2_counterexample :
    run_single_executor scopedModule 5 ["db"] (fun _ _ => .error "boom") 0 1
      [(0, 1, 2)] = (.error (.executionError "boom"), [.invokeFixture "db"]) := by
  have hg : ((0 : ℚ) < 0 + 1 * 60) := by norm_num
  simp [run_single_executor, setup_fixtures, run_fixture, resolveDepsWith,
    scopedModule, benchLoop, hg]

/-- Claim C2 (witness): the amended statement instantiated at the concrete
failing-benchmark executor — no teardown resumption of the SCOPED fixture
`db` occurs. -/
theorem C2_witness :
    Event.teardown "db" ∉ (run_single_executor scopedModule 5 ["db"]
      (fun _ _ => .error "boom") 0 1 [(0, 1, 2)]).2 :=
  C2_amended scopedModule 5 ["db"] (fun _ _ => .error "boom") 0 1 [(0, 1, 2)]
    (.executionError "boom")
    (by
      have hg : ((0 : ℚ) < 0 + 1 * 60) := by norm_num
      simp [run_single_executor, setup_fixtures, run_fixture, resolveDepsWith,
        scopedModule, benchLoop, hg])
    (fun msg h => Err.noConfusion h) "db"

/-- Helper: every sample's timestamp produced by the measurement loop is a
`t_start` reading of its clock. -/
lemma benchLoop_timestamp_mem (endTime : ℚ) (invoke : Nat → Except String Value) :
    ∀ clock i samples evs, benchLoop endTime invoke i clock = (.ok samples, evs) →
      ∀ s ∈ samples, s.timestamp ∈ clock.map (fun t => t.2.1) := by
  intro clock
  induction clock with
  | nil =>
    intro i samples evs h s hs
    rw [benchLoop] at h
    cases h
    simp at hs
  | cons t rest ih =>
    intro i samples evs h s hs
    obtain ⟨tc, ts, te⟩ := t
    rw [benchLoop] at h
    split at h
    · split at h
      · cases h
      · split at h
        · cases h
        · rename_i samples' evs' hr
          cases h
          rcases List.mem_cons.mp hs with h1 | h2
          · subst h1
            simp
          · have := ih (i + 1) samples' evs' hr s h2
            simp only [List.map_cons, List.mem_cons]
            exact Or.inr this
    · cases h
      simp at hs

/-- Helper: a `t_start` reading occurs in the flattened reading sequence. -/
lemma mem_mid_flattenClock :
    ∀ (clock : List (ℚ × ℚ × ℚ)) (x : ℚ),
      x ∈ clock.map (fun t => t.2.1) → x ∈ flattenClock clock := by
  intro clock
  induction clock with
  | nil => intro x hx; simp at hx
  | cons t rest ih =>
    intro x hx
    obtain ⟨tc, ts, te⟩ := t
    simp only [List.map_cons, List.mem_cons] at hx
    rcases hx with h1 | h2
    · simp [flattenClock, h1]
    · simp [flattenClock, ih x h2]

/-- Helper: under a monotone clock, the measurement loop's samples are in
nondecreasing timestamp order. -/
lemma benchLoop_sorted (endTime : ℚ) (invoke : Nat → Except String Value) :
    ∀ clock i samples evs, List.Pairwise (· ≤ ·) (flattenClock clock) →
      benchLoop endTime invoke i clock = (.ok samples, evs) →
      List.Pairwise (· ≤ ·) (samples.map Sample.timestamp) := by
  intro clock
  induction clock with
  | nil =>
    intro i samples evs hp h
    rw [benchLoop] at h
    cases h
    simp
  | cons t rest ih =>
    intro i samples evs hp h
    obtain ⟨tc, ts, te⟩ := t
    simp only [flattenClock] at hp
    have hts : ∀ y ∈ te :: flattenClock rest, ts ≤ y :=
      fun y hy => List.rel_of_pairwise_cons (List.Pairwise.of_cons hp) hy
    have hrest : List.Pairwise (· ≤ ·) (flattenClock rest) :=
      (List.Pairwise.of_cons (List.Pairwise.of_cons (List.Pairwise.of_cons hp)))
    rw [benchLoop] at h
    split at h
    · split at h
      · cases h
      · split at h
        · cases h
        · rename_i samples' evs' hr
          cases h
          simp only [List.map_cons]
          rw [List.pairwise_cons]
          constructor
          · intro y hy
            simp only [List.mem_map] at hy
            obtain ⟨s, hs, rfl⟩ := hy
            have hmem := benchLoop_timestamp_mem endTime invoke rest (i + 1)
              samples' evs' hr s hs
            exact hts s.timestamp (List.mem_cons_of_mem te
              (mem_mid_flattenClock rest s.timestamp hmem))
          · exact ih (i + 1) samples' evs' hrest hr
    · cases h
      simp

/-- Claim C8: under a monotone (nondecreasing) wall clock, the samples of a
single Task Executor are ordered by invocation start time
(`sample[i].timestamp <= sample[i+1].timestamp`), and the Worker Unit's
concatenation is exactly the flattening of its executors' sample lists in
task order, so each executor's internal order is preserved (each executor's
list is a sublist of the concatenation). -/
theorem C8_ordering :
    (∀ (module : FixModule) (fuel : Nat) (fixture_names : List String)
      (bench : List Value → Nat → Except String Value)
      (startTime durationMinutes : ℚ) (clock : List (ℚ × ℚ × ℚ))
      (samples : List Sample) (evs : List Event),
      List.Pairwise (· ≤ ·) (flattenClock clock) →
      run_single_executor module fuel fixture_names bench startTime
        durationMinutes clock = (.ok samples, evs) →
      List.Pairwise (· ≤ ·) (samples.map Sample.timestamp)) ∧
    (∀ (module : FixModule) (fuel : Nat) (fixtures : List String)
      (bench : List Value → Nat → Except String Value) (dur : ℚ)
      (taskClocks : List (ℚ × List (ℚ × ℚ × ℚ))) (rs : List (List Sample)),
      collectResults (fun tc => (run_single_executor module fuel fixtures bench
        tc.1 dur tc.2).1) taskClocks = .ok rs →
      run_worker_async module fuel fixtures bench dur taskClocks = .ok rs.flatten ∧
      ∀ r ∈ rs, r.Sublist rs.flatten) := by
  constructor
  · intro module fuel fixture_names bench startTime durationMinutes clock samples
      evs hp hrun
    rcases hsetup : setup_fixtures module fuel fixture_names [] with ⟨rsetup, tr⟩
    cases rsetup with
    | error e' =>
      simp only [run_single_executor, hsetup] at hrun
      cases hrun
    | ok triple =>
      obtain ⟨gens, values, c⟩ := triple
      rcases hloop : benchLoop (startTime + durationMinutes * 60) (bench values) 0
        clock with ⟨rloop, evs'⟩
      cases rloop with
      | error e' =>
        simp only [run_single_executor, hsetup, hloop] at hrun
        cases hrun
      | ok samples' =>
        rcases hrel : release gens with ⟨rrel, tevs⟩
        cases rrel with
        | error e' =>
          simp only [run_single_executor, hsetup, hloop, hrel] at hrun
          cases hrun
        | ok u =>
          simp only [run_single_executor, hsetup, hloop, hrel, Prod.mk.injEq,
            Except.ok.injEq] at hrun
          obtain ⟨h1, h2⟩ := hrun
          rw [h1] at hloop
          exact benchLoop_sorted (startTime + durationMinutes * 60) (bench values)
            clock 0 samples evs' hp hloop
  · intro module fuel fixtures bench dur taskClocks rs h
    refine ⟨by simp [run_worker_async, h], ?_⟩
    intro r hr
    exact List.sublist_flatten_of_mem hr

/-- Claim C8 (witness): the ordering statement instantiated at a concrete
two-iteration executor run and a concrete one-task worker. -/
theorem C8_witness :
    List.Pairwise (· ≤ ·)
      (([⟨1, 1000, 0⟩, ⟨4, 1000, 0⟩] : List Sample).map Sample.timestamp) ∧
    run_worker_async [] 1 [] (fun _ _ => .ok 0) 1 [(0, [])] =
      .ok ([[]] : List (List Sample)).flatten ∧
    ∀ r ∈ ([[]] : List (List Sample)), r.Sublist ([[]] : List (List Sample)).flatten := by
  have hmain := C8_ordering
  have hrun : run_single_executor [] 1 [] (fun _ _ => .ok 0) 0 1
      [(0, 1, 2), (3, 4, 5)] =
      (.ok [⟨1, 1000, 0⟩, ⟨4, 1000, 0⟩],
        [.invokeBenchmark 0, .invokeBenchmark 1]) := by
    norm_num [run_single_executor, setup_fixtures, benchLoop, release]
  have hw := hmain.2 [] 1 [] (fun _ _ => .ok 0) 1 [(0, [])] [[]] rfl
  exact ⟨hmain.1 [] 1 [] (fun _ _ => .ok 0) 0 1 [(0, 1, 2), (3, 4, 5)]
    [⟨1, 1000, 0⟩, ⟨4, 1000, 0⟩] [.invokeBenchmark 0, .invokeBenchmark 1]
    (by decide) hrun, hw.1, hw.2⟩

/-- Helper: dependency resolution only adds cache entries, provided the
resolver does. -/
lemma resolveDepsWith_mono
    (rf : String → Cache → Except Err (List Gen × Value × Cache) × List Event)
    (h2 : RfMonotone rf) :
    ∀ ds cache gens args cache2 tr,
      resolveDepsWith rf ds cache = (.ok (gens, args, cache2), tr) →
      ∀ m, isCached cache m = true → isCached cache2 m = true := by
  intro ds
  induction ds with
  | nil =>
    intro cache gens args cache2 tr h m hm
    rw [resolveDepsWith] at h
    cases h
    exact hm
  | cons d ds ih =>
    intro cache gens args cache2 tr h m hm
    rw [resolveDepsWith] at h
    split at h
    · rename_i v hl
      split at h
      · rename_i e' tr' hr
        cases h
      · rename_i gens' args' cache1' tr' hr
        cases h
        exact ih _ _ _ _ _ hr m hm
    · rename_i hl
      split at h
      · rename_i e' tr' hrf
        cases h
      · rename_i g1 v cache1 tr1 hrf
        split at h
        · rename_i e' tr2 hr2
          cases h
        · rename_i gens' args' cache2' tr2 hr2
          cases h
          exact ih _ _ _ _ _ hr2 m (h2 d cache g1 v cache1 tr1 hrf m hm)

/-- Helper: dependency resolution never invokes the producer of a fixture
that is already cached, provided the resolver has both invariants. -/
lemma resolveDepsWith_no_reinvoke
    (rf : String → Cache → Except Err (List Gen × Value × Cache) × List Event)
    (h1 : RfNoReinvoke rf) (h2 : RfMonotone rf) :
    ∀ ds cache m, isCached cache m = true →
      Event.invokeFixture m ∉ (resolveDepsWith rf ds cache).2 := by
  intro ds
  induction ds with
  | nil =>
    intro cache m hm
    simp [resolveDepsWith]
  | cons d ds ih =>
    intro cache m hm hmem
    rw [resolveDepsWith] at hmem
    split at hmem
    · rename_i v hl
      split at hmem
      · rename_i e' tr' hr
        exact ih cache m hm (by rw [hr]; exact hmem)
      · rename_i gens' args' cache1' tr' hr
        exact ih cache m hm (by rw [hr]; exact hmem)
    · rename_i hl
      have hne : m ≠ d := by
        intro hmd
        subst hmd
        rw [isCached, hl] at hm
        cases hm
      split at hmem
      · rename_i e' tr' hrf
        exact h1 d cache m hm hne (by rw [hrf]; exact hmem)
      · rename_i g1 v cache1 tr1 hrf
        split at hmem
        · rename_i e' tr2 hr2
          rcases List.mem_append.mp hmem with ha | hb
          · exact h1 d cache m hm hne (by rw [hrf]; exact ha)
          · exact ih cache1 m (h2 d cache g1 v cache1 tr1 hrf m hm)
              (by rw [hr2]; exact hb)
        · rename_i gens' args' cache2' tr2 hr2
          rcases List.mem_append.mp hmem with ha | hb
          · exact h1 d cache m hm hne (by rw [hrf]; exact ha)
          · exact ih cache1 m (h2 d cache g1 v cache1 tr1 hrf m hm)
              (by rw [hr2]; exact hb)

/-- Helper: adding a cache entry preserves cachedness. -/
lemma isCached_cons (k : String) (v : Value) (cache : Cache) (m : String)
    (hm : isCached cache m = true) : isCached ((k, v) :: cache) m = true := by
  by_cases hmk : m = k
  · subst hmk
    simp [isCached, List.lookup]
  · simp only [isCached, List.lookup] at hm ⊢
    have : (m == k) = false := beq_eq_false_iff_ne.mpr hmk
    rw [this]
    exact hm

/-- Helper: `run_fixture` never re-invokes a cached fixture other than its
own entry name, and only adds cache entries. -/
lemma run_fixture_invariants (module : FixModule) :
    ∀ fuel, RfNoReinvoke (run_fixture module fuel) ∧
      RfMonotone (run_fixture module fuel) := by
  intro fuel
  induction fuel with
  | zero =>
    constructor
    · intro d cache m hm hne hmem
      simp [run_fixture] at hmem
    · intro d cache gens v cache1 tr h m hm
      cases h
  | succ n ih =>
    constructor
    · intro d cache m hm hne hmem
      simp only [run_fixture] at hmem
      split at hmem
      · simp at hmem
      · rename_i f hl
        split at hmem
        · rename_i e' tr hr
          exact resolveDepsWith_no_reinvoke _ ih.1 ih.2 f.deps cache m hm
            (by rw [hr]; exact hmem)
        · rename_i gens args cache1 tr hr
          split at hmem
          · rename_i produce
            rcases List.mem_append.mp hmem with ha | hb
            · exact resolveDepsWith_no_reinvoke _ ih.1 ih.2 f.deps cache m hm
                (by rw [hr]; exact ha)
            · exact hne (by simpa using hb)
          · rename_i produce td
            rcases List.mem_append.mp hmem with ha | hb
            · exact resolveDepsWith_no_reinvoke _ ih.1 ih.2 f.deps cache m hm
                (by rw [hr]; exact ha)
            · exact hne (by simpa using hb)
          · exact resolveDepsWith_no_reinvoke _ ih.1 ih.2 f.deps cache m hm
              (by rw [hr]; exact hmem)
    · intro d cache gens v cache1 tr h m hm
      simp only [run_fixture] at h
      split at h
      · cases h
      · rename_i f hl
        split at h
        · rename_i e' tr' hr
          cases h
        · rename_i gens' args' cacheD trD hr
          split at h
          · rename_i produce hbody
            cases h
            exact isCached_cons _ _ _ m
              (resolveDepsWith_mono _ ih.2 f.deps cache _ _ _ _ hr m hm)
          · rename_i produce td hbody
            cases h
            exact isCached_cons _ _ _ m
              (resolveDepsWith_mono _ ih.2 f.deps cache _ _ _ _ hr m hm)
          · cases h

/-- Claim C4 (amended): memoization holds for the dependency path only —
during dependency resolution a fixture name already in the FixtureCache is
never re-invoked (its cached value is used) — but `run_fixture` never
consults the cache for its entry name, so a fixture resolved again as a
direct entry of the benchmark's dependency list has its producer invoked
unconditionally, even when its name is already cached. -/
theorem C4_amended :
    (∀ (module : FixModule) (fuel : Nat) (ds : List String) (cache : Cache)
      (m : String),
      isCached cache m = true →
      Event.invokeFixture m ∉ (resolve_deps module fuel ds cache).2) ∧
    (∀ (module : FixModule) (fuel : Nat) (name : String) (cache : Cache)
      (produce : List Value → Value),
      List.lookup name module = some ⟨[], .coroutine produce⟩ →
      (run_fixture module (fuel + 1) name cache).2 = [.invokeFixture name]) := by
  constructor
  · intro module fuel ds cache m hm
    exact resolveDepsWith_no_reinvoke _ (run_fixture_invariants module fuel).1
      (run_fixture_invariants module fuel).2 ds cache m hm
  · intro module fuel name cache produce h
    simp [run_fixture, h, resolveDepsWith]

/-- Claim C4 (counterexample): in the graph where `b` depends on `a` and
the benchmark lists `["b", "a"]`, resolving `b` first caches `a` as a
transitive dependency, and the subsequent direct resolution of `a`
re-invokes `a`'s producer: the producer of `a` runs twice within one
FixtureCache, not exactly once. -/
theorem C4_counterexample :
    (setup_fixtures memoModule 5 ["b", "a"] []).2 =
      [.invokeFixture "a", .invokeFixture "b", .invokeFixture "a"] ∧
    (setup_fixtures memoModule 5 ["b", "a"] []).2.count (.invokeFixture "a") = 2 :=
  ⟨rfl, rfl⟩

/-- Claim C4 (witness): the amended statement instantiated — a cached `a`
is not re-invoked when resolved as a dependency, and a direct `run_fixture`
entry call emits exactly its own invocation. -/
theorem C4_witness :
    Event.invokeFixture "a" ∉ (resolve_deps memoModule 3 ["a"] [("a", 1)]).2 ∧
    (run_fixture memoModule 1 "a" []).2 = [.invokeFixture "a"] :=
  ⟨C4_amended.1 memoModule 3 ["a"] [("a", 1)] "a" rfl,
   C4_amended.2 memoModule 0 "a" [] (fun _ => 1) rfl⟩
